import Mathlib

/-!
Verification of the package-store fetch pipeline.

The development shallowly embeds the store coordinator (`doFetchToStore`,
`resolveAndFetch`), the HTTP client auth and size checks, the request-queue
priority policy and the shrinkwrap-resolution reuse logic, and proves the
specified properties about these definitions.

Paths are modelled as lists of segments.  Asynchronous futures are modelled
as explicit set-once states.  Each fallible external effect (filesystem,
network, unpacker) is an `Except` value supplied by an environment record,
and the coordinator is a pure function from that environment to an outcome
recording the final future states and the ordered traces of effects.
-/

namespace PackageStore

abbrev Err := String

abbrev Path := List String

/-- A deferred promise: pending until resolved or rejected, set-once. -/
inductive Future (α : Type) where
  | pending : Future α
  | resolved : α → Future α
  | rejected : Err → Future α
deriving DecidableEq, Repr

/-- Resolving an already settled promise is a no-op. -/
def Future.resolveOnce : Future α → α → Future α
  | .pending, v => .resolved v
  | f, _ => f

/-- Rejecting an already settled promise is a no-op. -/
def Future.rejectOnce : Future α → Err → Future α
  | .pending, e => .rejected e
  | f, _ => f

/-- The parsed package.json of a package; only the name is relevant here. -/
structure Pkg where
  name : String
deriving DecidableEq, Repr

/-- What fetchingFiles resolves with. -/
structure PackageContentInfo where
  index : String
  isNew : Bool
deriving DecidableEq, Repr

instance {ε α : Type} [DecidableEq ε] [DecidableEq α] : DecidableEq (Except ε α) := by
  intro a b
  cases a <;> cases b
  · rename_i x y
    exact decidable_of_iff (x = y) (by simp)
  · exact .isFalse (by simp)
  · exact .isFalse (by simp)
  · rename_i x y
    exact decidable_of_iff (x = y) (by simp)

/-- The unpack-stream result: headers plus the eventual integrity promise. -/
structure PkgIndex where
  headers : String
  integrityResult : Except Err String
deriving DecidableEq, Repr

/-- Filesystem and scheduling effects recorded in order of initiation. -/
inductive FsEvent where
  | rimraf (p : Path)
  | fetchInto (p : Path)
  | readPkgDir (p : Path)
  | mkdir (p : Path)
  | rename (src dst : Path)
  | symlink (src dst : Path)
  | writeIntegrityStart (p : Path)
  | writeIntegrityComplete (p : Path)
  | settleCalculatingIntegrity
deriving DecidableEq, Repr

/-- Recursive deletion of `p` removes `q` exactly when `p` is an initial
segment of `q`. -/
def covers (p q : Path) : Bool := List.isPrefixOf p q

/-- The staging directory: the source appends the string suffix to the
final path segment (backtick-free rendering of target plus underscore
stage). -/
def stageOf : Path → Path
  | [] => ["_stage"]
  | [s] => [s ++ "_stage"]
  | s :: t => s :: stageOf t

def splitPathAux : List Char → List Char → List String
  | [], acc => [String.mk acc.reverse]
  | c :: rest, acc =>
      if c = '/' then String.mk acc.reverse :: splitPathAux rest []
      else splitPathAux rest (c :: acc)

/-- Splitting a slash-separated string into path segments, as path.join
does with a multi-segment argument. -/
def splitPath (s : String) : Path := splitPathAux s.data []

/-- Modelled from the spec: `pkgIdToFilename` (the source file
src/fs/pkgIdToFilename is not part of the provided sources).  Per the
spec it is a pure, stable function that replaces unsafe characters and
enforces filesystem-legal segments; we replace each filesystem-illegal
character with a plus sign, keeping the slash separators. -/
def pkgIdToFilename (pkgId : String) : String :=
  String.mk (pkgId.data.map (fun c =>
    if c = ':' ∨ c = '*' ∨ c = '?' ∨ c = '<' ∨ c = '>' ∨ c = '|' then '+' else c))

/-- Where `doFetchToStore` points the fetcher for the cached tarball:
path.join of storePath, the raw pkgId and packed.tgz. -/
def cachedTarballLocation (storePath : Path) (pkgId : String) : Path :=
  storePath ++ splitPath pkgId ++ ["packed.tgz"]

/-- The store entry directory computed by `resolveAndFetch`:
path.join of storePath and pkgIdToFilename of the id. -/
def storeTarget (storePath : Path) (pkgId : String) : Path :=
  storePath ++ splitPath (pkgIdToFilename pkgId)

/-- Options `fetchToStore` receives. -/
structure FetchOpts where
  pkg : Option Pkg
  pkgId : String
  storePath : Path
  target : Path
  verifyStoreIntegrity : Bool
deriving Repr

/-- Results of the external effects the coordinator performs, in the
order the source may request them. -/
structure FetchEnv where
  /-- storeIndex has a record at targetRelative -/
  indexHasEntry : Bool
  /-- exists(linkToUnpacked/package.json) -/
  packageJsonExists : Bool
  /-- untouched(linkToUnpacked): some index when the strict verifier trusts the entry -/
  untouchedResult : Except Err (Option String)
  /-- loadJsonFile(target/integrity.json): some index when the loaded value is truthy -/
  loadIntegrityResult : Except Err (Option String)
  /-- readPkgFromDir(linkToUnpacked) on the store-hit path -/
  readPkgLinkResult : Except Err Pkg
  /-- rimraf(targetStage) -/
  rimrafStageResult : Except Err Unit
  /-- the queued fetcher call populating targetStage -/
  fetchResult : Except Err PkgIndex
  /-- rimraf(target/node_modules) on the refetch path -/
  rimrafModulesResult : Except Err Unit
  /-- whether the unawaited writeJsonFile of integrity.json eventually succeeds -/
  writeCompletes : Bool
  /-- readPkgFromDir(targetStage) -/
  readPkgStageResult : Except Err Pkg
  /-- mkdirp(target/node_modules) -/
  mkdirResult : Except Err Unit
  /-- renameOverwrite(targetStage, unpacked) -/
  renameResult : Except Err Unit
  /-- symlinkDir(unpacked, linkToUnpacked) -/
  symlinkResult : Except Err Unit
deriving Repr

/-- Final state of one `fetchToStore` run: the three caller-facing
futures, the ordered effect trace of the main async function, the trace
of the detached integrity-recording task, and instrumentation. -/
structure Outcome where
  fetchingPkg : Future Pkg
  fetchingFiles : Future PackageContentInfo
  calculatingIntegrity : Future Unit
  mainTrace : List FsEvent
  bgTrace : List FsEvent
  fetcherCalled : Bool
  entryTreatedPresent : Bool
  tarballCache : Option Path
deriving Repr

/-- The returned fetchingPkg promise: pre-resolved when the caller
supplied pkg, else the internal deferred. -/
def pkgFuture0 (opts : FetchOpts) : Future Pkg :=
  match opts.pkg with
  | some p => .resolved p
  | none => .pending

/-- satisfiedIntegrity: the strict verifier in verify mode, the loaded
integrity.json otherwise. -/
def verifierResult (opts : FetchOpts) (env : FetchEnv) : Except Err (Option String) :=
  if opts.verifyStoreIntegrity then env.untouchedResult else env.loadIntegrityResult

/-- The catch handler of `doFetchToStore`: reject fetchingFiles, and
reject fetchingPkg when the caller did not pre-supply pkg.  The rejects
are set-once, so an already settled future is unchanged. -/
def caught (opts : FetchOpts) (e : Err) (fPkg : Future Pkg) (ci : Future Unit)
    (mainTr bgTr : List FsEvent) (called present : Bool) : Outcome :=
  { fetchingFiles := Future.rejectOnce .pending e
    fetchingPkg := if opts.pkg.isSome then fPkg else fPkg.rejectOnce e
    calculatingIntegrity := ci
    mainTrace := mainTr
    bgTrace := bgTr
    fetcherCalled := called
    entryTreatedPresent := present
    tarballCache := if called then some (cachedTarballLocation opts.storePath opts.pkgId) else none }

/-- The detached integrity-recording task for fresh entries: await the
integrity (integrityPromise in strict mode, headers otherwise), start the
unawaited writeJsonFile of target/integrity.json, then synchronously
resolve calculatingIntegrity; the write completes, if ever, only after
that synchronous continuation. -/
def integrityBg (opts : FetchOpts) (env : FetchEnv) (pkgIndex : PkgIndex) :
    Future Unit × List FsEvent :=
  let ip := opts.target ++ ["integrity.json"]
  match (if opts.verifyStoreIntegrity then pkgIndex.integrityResult
         else Except.ok pkgIndex.headers) with
  | .error _ => (.pending, [])
  | .ok _ =>
      (.resolved (),
        [.writeIntegrityStart ip, .settleCalculatingIntegrity] ++
          (if env.writeCompletes then [.writeIntegrityComplete ip] else []))

/-- Manifest surfacing: use the supplied pkg, else read it from the
stage directory and resolve fetchingPkg. -/
def manifestStep (opts : FetchOpts) (env : FetchEnv) (stage : Path) :
    List FsEvent × Except Err (Pkg × Future Pkg) :=
  match opts.pkg with
  | some p => ([], .ok (p, pkgFuture0 opts))
  | none =>
      match env.readPkgStageResult with
      | .ok p => ([.readPkgDir stage], .ok (p, .resolved p))
      | .error e => ([.readPkgDir stage], .error e)

/-- Steps 2 to 7 of the staged materialization, entered when the entry is
absent or failed verification (`targetExists` is the refetch flag). -/
def fetchPath (opts : FetchOpts) (env : FetchEnv) (targetExists : Bool) : Outcome :=
  let target := opts.target
  let stage := stageOf target
  let t0 : List FsEvent := [.rimraf stage]
  match env.rimrafStageResult with
  | .error e => caught opts e (pkgFuture0 opts) .pending t0 [] false targetExists
  | .ok _ =>
    let t1 := t0 ++ [.fetchInto stage] ++
      (if targetExists then [.rimraf (target ++ ["node_modules"])] else [])
    match env.fetchResult with
    | .error e => caught opts e (pkgFuture0 opts) .pending t1 [] true targetExists
    | .ok pkgIndex =>
      match (if targetExists then env.rimrafModulesResult else .ok ()) with
      | .error e => caught opts e (pkgFuture0 opts) .pending t1 [] true targetExists
      | .ok _ =>
        let s :=
          if targetExists then
            ((Future.resolved (), ([] : List FsEvent)), t1 ++ [.settleCalculatingIntegrity])
          else (integrityBg opts env pkgIndex, t1)
        let ci := s.1.1
        let bgTr := s.1.2
        let t2 := s.2
        let m := manifestStep opts env stage
        let t3 := t2 ++ m.1
        match m.2 with
        | .error e => caught opts e (pkgFuture0 opts) ci t3 bgTr true targetExists
        | .ok (pkg, fPkg1) =>
          let unpacked := target ++ ["node_modules", pkg.name]
          let t4 := t3 ++ [.mkdir (target ++ ["node_modules"])]
          match env.mkdirResult with
          | .error e => caught opts e fPkg1 ci t4 bgTr true targetExists
          | .ok _ =>
            let t5 := t4 ++ [.rename stage unpacked]
            match env.renameResult with
            | .error e => caught opts e fPkg1 ci t5 bgTr true targetExists
            | .ok _ =>
              let t6 := t5 ++ [.symlink unpacked (target ++ ["package"])]
              match env.symlinkResult with
              | .error e => caught opts e fPkg1 ci t6 bgTr true targetExists
              | .ok _ =>
                { fetchingFiles := .resolved ⟨pkgIndex.headers, true⟩
                  fetchingPkg := fPkg1
                  calculatingIntegrity := ci
                  mainTrace := t6
                  bgTrace := bgTr
                  fetcherCalled := true
                  entryTreatedPresent := targetExists
                  tarballCache := some (cachedTarballLocation opts.storePath opts.pkgId) }

/-- The body of `doFetchToStore`: the entry is treated as present
exactly when the store index records it and package/package.json exists;
a present, trusted entry short-circuits to the reuse outcome, otherwise
the staged materialization runs. -/
def doFetchToStore (opts : FetchOpts) (env : FetchEnv) : Outcome :=
  let present := env.indexHasEntry && env.packageJsonExists
  if present then
    match verifierResult opts env with
    | .error e => caught opts e (pkgFuture0 opts) .pending [] [] false true
    | .ok (some integ) =>
        let link := opts.target ++ ["package"]
        { fetchingFiles := .resolved ⟨integ, false⟩
          fetchingPkg :=
            match opts.pkg with
            | some p => .resolved p
            | none =>
                match env.readPkgLinkResult with
                | .ok p => .resolved p
                | .error e => .rejected e
          calculatingIntegrity := .resolved ()
          mainTrace := if opts.pkg.isSome then [] else [.readPkgDir link]
          bgTrace := []
          fetcherCalled := false
          entryTreatedPresent := true
          tarballCache := none }
    | .ok none => fetchPath opts env true
  else fetchPath opts env false

/-! Per-identity coalescing: the fetching locker consulted and populated
by `resolveAndFetch`.  The three futures of a locker entry are modelled
as distinct tokens allocated from a counter, and the ids for which
`fetchToStore` was invoked are recorded in order. -/

/-- One locker entry: the three futures handed to every waiter. -/
structure LockerEntry where
  fetchingPkg : Nat
  fetchingFiles : Nat
  calculatingIntegrity : Nat
deriving DecidableEq, Repr

/-- The coordinator state shared by all `resolveAndFetch` calls that use
one fetchingLocker. -/
structure CoordState where
  locker : List (String × LockerEntry)
  nextFuture : Nat
  fetchedIds : List String
deriving DecidableEq, Repr

def lookupLocker : List (String × LockerEntry) → String → Option LockerEntry
  | [], _ => none
  | (k, e) :: rest, id => if k = id then some e else lookupLocker rest id

def initCoordState : CoordState := { locker := [], nextFuture := 0, fetchedIds := [] }

/-- The locker step of `resolveAndFetch`: on a miss, `fetchToStore` is
invoked (allocating three fresh futures) and its triple stored; the
returned handle always reads the stored entry.  The check and the
insertion are a single synchronous section, faithfully to the source
which suspends only after the entry is stored. -/
def resolveAndFetchLocker (st : CoordState) (id : String) : CoordState × Option LockerEntry :=
  let st' :=
    match lookupLocker st.locker id with
    | some _ => st
    | none =>
        { locker := (id, ⟨st.nextFuture, st.nextFuture + 1, st.nextFuture + 2⟩) :: st.locker
          nextFuture := st.nextFuture + 3
          fetchedIds := st.fetchedIds ++ [id] }
  (st', lookupLocker st'.locker id)

/-- A sequence of `resolveAndFetch` calls sharing one locker. -/
def runCalls : CoordState → List String → CoordState
  | st, [] => st
  | st, id :: rest => runCalls (resolveAndFetchLocker st id).1 rest

/-! The request scheduler priority policy of `doFetchToStore`. -/

/-- The request queue with its submission counter. -/
structure QueueState where
  counter : Nat
  concurrency : Nat
deriving DecidableEq, Repr

/-- Priority assignment for one admitted network fetch: pre-increment
the counter, give every concurrency-th submission priority -1000 and all
others 1000. -/
def nextPriority (st : QueueState) : QueueState × Int :=
  let c := st.counter + 1
  (⟨c, st.concurrency⟩, (if c % st.concurrency = 0 then (-1 : Int) else 1) * 1000)

/-- The priorities assigned over k consecutive submissions. -/
def prioritySeq : QueueState → Nat → List Int
  | _, 0 => []
  | st, k + 1 =>
      let s := nextPriority st
      s.2 :: prioritySeq s.1 k

/-! The HTTP client: auth scoping of `download` and the stream-close
size verification. -/

/-- The credential record resolved from a registry by credentials-by-uri. -/
structure Creds where
  alwaysAuth : Bool
deriving DecidableEq, Repr

/-- Host extraction, modelling url.parse of the Node url module (an
external collaborator): the text after the first double slash up to the
next slash; absent when the url has no double slash. -/
def hostOf (url : String) : Option String :=
  match url.splitOn "//" with
  | _ :: after :: _ => some ((after.splitOn "/").headD after)
  | _ => none

/-- The auth attached by `download` to the outgoing tarball request:
credentials are looked up only when a registry option is provided, and
shouldAuth requires a truthy auth record and one of alwaysAuth, a
missing registry, or matching hosts; the request carries
shouldAuth && auth || undefined. -/
def downloadAuth (getCred : String → Creds) (registry : Option String) (url : String) :
    Option Creds :=
  let auth : Option Creds := registry.map getCred
  let shouldAuth : Bool :=
    match auth with
    | none => false
    | some a =>
        a.alwaysAuth || registry.isNone ||
          (hostOf url = (match registry with | some r => hostOf r | none => none))
  if shouldAuth then auth else none

/-- Claim C3 instantiated at one input: credentials are attached iff
alwaysAuth is set, or no registry option is provided, or the tarball
host equals the registry host. -/
def authClaimAt (getCred : String → Creds) (registry : Option String) (url : String) : Prop :=
  (downloadAuth getCred registry url).isSome = true ↔
    ((registry.map (fun r => (getCred r).alwaysAuth)).getD false = true ∨
      registry = none ∨
      (∃ r, registry = some r ∧ hostOf url = hostOf r))

/-- The BadTarball error payload. -/
structure BadTarball where
  expectedSize : Nat
  receivedSize : Nat
  tarballUrl : String
deriving DecidableEq, Repr

/-- Outcome of the stream-close promise. -/
inductive CloseOutcome where
  | resolvedOk : CloseOutcome
  | rejectedBadTarball : BadTarball → CloseOutcome
deriving DecidableEq, Repr

/-- `waitTillClosed`: on close, fail with BadTarball when a size was
announced and the downloaded byte count differs, otherwise resolve. -/
def waitTillClosed (size : Option Nat) (downloaded : Nat) (url : String) : CloseOutcome :=
  match size with
  | some s =>
      if s ≠ downloaded then
        .rejectedBadTarball ⟨s, downloaded, url⟩
      else .resolvedOk
  | none => .resolvedOk

/-! Resolution reuse in `resolveAndFetch`. -/

/-- A resolution, tagged as in the source. -/
inductive Resolution where
  | tarball (url : String) (integrity : Option String) (registry : Option String)
  | directory (dir : String)
  | git (repo : String) (commit : String)
deriving DecidableEq, Repr

/-- What a resolver returns. -/
structure ResolveResult where
  id : String
  resolution : Resolution
deriving DecidableEq, Repr

/-- The resolution and id `resolveAndFetch` ends up with. -/
structure ChosenResolution where
  resolution : Option Resolution
  pkgId : Option String
  resolverRan : Bool
deriving DecidableEq, Repr

/-- The resolution-selection logic of `resolveAndFetch`: start from the
shrinkwrap resolution and the supplied pkgId; run the resolver when no
pinned resolution exists or an update was requested; keep the pinned
resolution unless the resolved id differs from the supplied pkgId or no
pinned resolution exists. -/
def chooseResolution (shrinkwrapResolution : Option Resolution) (pkgIdOpt : Option String)
    (update : Bool) (resolveResult : ResolveResult) : ChosenResolution :=
  if shrinkwrapResolution.isNone || update then
    let resolution :=
      if pkgIdOpt ≠ some resolveResult.id ∨ shrinkwrapResolution = none then
        some resolveResult.resolution
      else shrinkwrapResolution
    { resolution := resolution, pkgId := some resolveResult.id, resolverRan := true }
  else
    { resolution := shrinkwrapResolution, pkgId := pkgIdOpt, resolverRan := false }

/-! Path helper lemmas. -/

theorem append_stage_ne (s : String) : ¬ s ++ "_stage" = s := by
  intro h
  have hl := congrArg String.length h
  rw [String.length_append] at hl
  have h6 : "_stage".length = 6 := rfl
  rw [h6] at hl
  omega

theorem covers_append_last (t : Path) (a b : String) :
    covers (t ++ [a]) (t ++ [b]) = (a == b) := by
  induction t with
  | nil => simp [covers, List.isPrefixOf]
  | cons s rest ih => simpa [covers, List.isPrefixOf] using ih

theorem covers_stage_append (t : Path) (x : String) (hx : ¬ x = "_stage") :
    covers (stageOf t) (t ++ [x]) = false := by
  induction t with
  | nil =>
      simp only [stageOf, covers, List.nil_append, List.isPrefixOf, Bool.and_true]
      simp only [beq_eq_false_iff_ne, ne_eq]
      exact fun h => hx h.symm
  | cons s rest ih =>
      cases rest with
      | nil =>
          simp only [stageOf, covers, List.cons_append, List.nil_append, List.isPrefixOf]
          simp only [beq_eq_false_iff_ne, ne_eq, Bool.and_eq_false_iff]
          exact Or.inl (append_stage_ne s)
      | cons a rest' =>
          simpa [covers, stageOf, List.isPrefixOf] using ih

/-! Locker invariant lemmas. -/

theorem lookupLocker_preserved (st : CoordState) (id id' : String) (e : LockerEntry)
    (h : lookupLocker st.locker id' = some e) :
    lookupLocker (resolveAndFetchLocker st id).1.locker id' = some e := by
  simp only [resolveAndFetchLocker]
  cases h0 : lookupLocker st.locker id with
  | some e' => simpa using h
  | none =>
      by_cases hid : id = id'
      · subst hid; rw [h0] at h; cases h
      · simpa [lookupLocker, hid] using h

/-- Invariant tying fetch invocations to locker membership. -/
def lockerInv (st : CoordState) : Prop :=
  ∀ id, st.fetchedIds.count id ≤ 1 ∧
    (id ∈ st.fetchedIds → (lookupLocker st.locker id).isSome = true)

theorem lockerInv_init : lockerInv initCoordState := by
  intro id
  simp [initCoordState]

theorem lockerInv_step (st : CoordState) (id : String) (h : lockerInv st) :
    lockerInv (resolveAndFetchLocker st id).1 := by
  simp only [resolveAndFetchLocker]
  cases h0 : lookupLocker st.locker id with
  | some e => simpa using h
  | none =>
      intro id'
      by_cases hid : id = id'
      · subst hid
        have hnotmem : id ∉ st.fetchedIds := by
          intro hmem
          have hsome := (h id).2 hmem
          rw [h0] at hsome
          simp at hsome
        refine ⟨?_, ?_⟩
        · rw [List.count_append]
          have hc0 : st.fetchedIds.count id = 0 := List.count_eq_zero.mpr hnotmem
          simp [hc0]
        · intro _
          simp [lookupLocker]
      · refine ⟨?_, ?_⟩
        · rw [List.count_append]
          have hone : List.count id' [id] = 0 := by
            simp [List.count_singleton]
            exact hid
          rw [hone]
          simpa using (h id').1
        · intro hmem
          rw [List.mem_append] at hmem
          rcases hmem with hm | hm
          · have := (h id').2 hm
            simpa [lookupLocker, hid] using this
          · simp at hm
            exact absurd hm.symm hid

theorem lockerInv_run (ids : List String) :
    ∀ st, lockerInv st → lockerInv (runCalls st ids) := by
  induction ids with
  | nil => intro st h; simpa [runCalls] using h
  | cons id rest ih =>
      intro st h
      rw [runCalls]
      exact ih _ (lockerInv_step st id h)

/-- C1: with one shared fetchingLocker, a call whose identity already has
a locker entry returns exactly that entry (the same three futures) and
changes nothing — no new fetchToStore invocation; existing locker entries
are never removed or replaced by any call; and over any sequence of calls
from a fresh state, fetchToStore (and hence the underlying fetcher) is
invoked at most once per identity. -/
theorem resolveAndFetch_coalescing :
    (∀ st : CoordState, ∀ id e, lookupLocker st.locker id = some e →
        resolveAndFetchLocker st id = (st, some e)) ∧
    (∀ st : CoordState, ∀ id id' e, lookupLocker st.locker id' = some e →
        lookupLocker (resolveAndFetchLocker st id).1.locker id' = some e) ∧
    (∀ ids id, (runCalls initCoordState ids).fetchedIds.count id ≤ 1) := by
  refine ⟨?_, ?_, ?_⟩
  · intro st id e h
    simp [resolveAndFetchLocker, h]
  · intro st id id' e h
    exact lookupLocker_preserved st id id' e h
  · intro ids id
    exact ((lockerInv_run ids initCoordState lockerInv_init) id).1

theorem resolveAndFetch_coalescing_witness :
    resolveAndFetchLocker ⟨[("reg.example.org/foo/1.0.0", ⟨0, 1, 2⟩)], 3,
        ["reg.example.org/foo/1.0.0"]⟩ "reg.example.org/foo/1.0.0" =
      (⟨[("reg.example.org/foo/1.0.0", ⟨0, 1, 2⟩)], 3, ["reg.example.org/foo/1.0.0"]⟩,
        some ⟨0, 1, 2⟩) :=
  resolveAndFetch_coalescing.1 _ "reg.example.org/foo/1.0.0" ⟨0, 1, 2⟩ (by decide)

/-! Priority rotation lemmas. -/

theorem prioritySeq_mem (c0 n k : Nat) :
    ∀ p ∈ prioritySeq ⟨c0, n⟩ k, p = 1000 ∨ p = -1000 := by
  induction k generalizing c0 with
  | zero =>
      intro p hp
      simp [prioritySeq] at hp
  | succ k ih =>
      intro p hp
      simp only [prioritySeq, nextPriority] at hp
      rcases List.mem_cons.mp hp with h | h
      · by_cases hc : (c0 + 1) % n = 0
        · right
          rw [h, if_pos hc]
          decide
        · left
          rw [h, if_neg hc]
          decide
      · exact ih (c0 + 1) p h

theorem prioritySeq_count (n : Nat) :
    ∀ k c0, (prioritySeq ⟨c0, n⟩ k).count (-1000) = (c0 + k) / n - c0 / n := by
  intro k
  induction k with
  | zero =>
      intro c0
      simp [prioritySeq]
  | succ k ih =>
      intro c0
      have hstep : (c0 + 1) / n = c0 / n + if n ∣ c0 + 1 then 1 else 0 := Nat.succ_div c0 n
      have hmono : (c0 + 1) / n ≤ (c0 + 1 + k) / n :=
        Nat.div_le_div_right (Nat.le_add_right _ _)
      have heq : c0 + 1 + k = c0 + (k + 1) := by omega
      have ihh := ih (c0 + 1)
      rw [heq] at ihh hmono
      simp only [prioritySeq, nextPriority, List.count_cons, ihh]
      by_cases hc : (c0 + 1) % n = 0
      · have hdvd : n ∣ c0 + 1 := Nat.dvd_iff_mod_eq_zero.mpr hc
        rw [if_pos hdvd] at hstep
        rw [if_pos hc]
        have hbeq : (((-1 : Int) * 1000 == -1000) = true) := by decide
        rw [hbeq, if_pos rfl]
        generalize c0 / n = A at hstep ⊢
        generalize (c0 + 1) / n = B at hstep hmono ⊢
        generalize (c0 + (k + 1)) / n = D at hmono ⊢
        omega
      · have hdvd : ¬ n ∣ c0 + 1 := fun hd => hc (Nat.dvd_iff_mod_eq_zero.mp hd)
        rw [if_neg hdvd] at hstep
        rw [if_neg hc]
        have hbeq : (((1 : Int) * 1000 == -1000) = false) := by decide
        rw [hbeq, if_neg (by simp)]
        generalize c0 / n = A at hstep ⊢
        generalize (c0 + 1) / n = B at hstep hmono ⊢
        generalize (c0 + (k + 1)) / n = D at hmono ⊢
        omega

theorem prioritySeq_count_bounds (c0 n k : Nat) (hn : 0 < n) :
    n * ((prioritySeq ⟨c0, n⟩ k).count (-1000)) ≤ k + n ∧
    k ≤ n * ((prioritySeq ⟨c0, n⟩ k).count (-1000) + 1) := by
  rw [prioritySeq_count n k c0]
  have hmono : c0 / n ≤ (c0 + k) / n := Nat.div_le_div_right (Nat.le_add_right _ _)
  have h1 := Nat.div_add_mod (c0 + k) n
  have h2 := Nat.div_add_mod c0 n
  have h3 : (c0 + k) % n < n := Nat.mod_lt _ hn
  have h4 : c0 % n < n := Nat.mod_lt _ hn
  obtain ⟨D, hD⟩ : ∃ D, (c0 + k) / n = c0 / n + D := ⟨(c0 + k) / n - c0 / n, by omega⟩
  rw [hD, Nat.mul_add] at h1
  rw [hD, Nat.add_sub_cancel_left, Nat.mul_add, Nat.mul_one]
  generalize n * (c0 / n) = x at h1 h2
  generalize n * D = y at h1 ⊢
  omega

/-- C5: every network fetch admitted by `doFetchToStore` gets priority
(counter pre-incremented, every concurrency-th submission deferred)
(if counter mod concurrency is zero then -1 else 1) * 1000; over any K
consecutive submissions every priority is 1000 or -1000 and the number
of deferred -1000 assignments equals K divided by the concurrency within
plus or minus one, i.e. concurrency * count ≤ K + concurrency and
K ≤ concurrency * (count + 1). -/
theorem requestPriority_rotation (c0 n k : Nat) (hn : 0 < n) :
    (∀ p ∈ prioritySeq ⟨c0, n⟩ k, p = 1000 ∨ p = -1000) ∧
    n * ((prioritySeq ⟨c0, n⟩ k).count (-1000)) ≤ k + n ∧
    k ≤ n * ((prioritySeq ⟨c0, n⟩ k).count (-1000) + 1) :=
  ⟨prioritySeq_mem c0 n k, (prioritySeq_count_bounds c0 n k hn).1,
    (prioritySeq_count_bounds c0 n k hn).2⟩

theorem requestPriority_rotation_witness :
    (∀ p ∈ prioritySeq ⟨0, 16⟩ 33, p = 1000 ∨ p = -1000) ∧
    16 * ((prioritySeq ⟨0, 16⟩ 33).count (-1000)) ≤ 33 + 16 ∧
    33 ≤ 16 * ((prioritySeq ⟨0, 16⟩ 33).count (-1000) + 1) :=
  requestPriority_rotation 0 16 33 (by decide)

/-- C6: when the response announced content-length N and the stream
closes after M bytes with M different from N, the download rejects with
BadTarball carrying expectedSize N, receivedSize M and the tarball url;
when M equals N it resolves; when no content-length was announced (size
null) no size check is performed and close always resolves. -/
theorem waitTillClosed_size_check (n m : Nat) (url : String) :
    (m ≠ n → waitTillClosed (some n) m url = .rejectedBadTarball ⟨n, m, url⟩) ∧
    waitTillClosed (some n) n url = .resolvedOk ∧
    waitTillClosed none m url = .resolvedOk := by
  refine ⟨fun h => ?_, ?_, rfl⟩
  · simp only [waitTillClosed]
    rw [if_pos (Ne.symm h)]
  · simp only [waitTillClosed]
    rw [if_neg (by simp)]

theorem waitTillClosed_size_check_witness :
    waitTillClosed (some 100) 80 "https://reg.example.org/foo.tgz" =
      .rejectedBadTarball ⟨100, 80, "https://reg.example.org/foo.tgz"⟩ :=
  (waitTillClosed_size_check 100 80 "https://reg.example.org/foo.tgz").1 (by decide)

/-- C10: with both a shrinkwrap resolution and a pkgId supplied and an
update requested, the resolver runs, yet the chosen resolution stays the
supplied shrinkwrap resolution exactly when the resolver returned the
supplied pkgId; the fresh resolution replaces it when the ids differ,
and also whenever no pinned resolution exists. -/
theorem shrinkwrapResolution_kept (sr : Resolution) (pid : String)
    (rr : ResolveResult) (pidOpt : Option String) :
    (chooseResolution (some sr) (some pid) true rr).resolverRan = true ∧
    (chooseResolution (some sr) (some pid) true rr).resolution =
      (if pid = rr.id then some sr else some rr.resolution) ∧
    (chooseResolution (some sr) (some pid) true rr).pkgId = some rr.id ∧
    (chooseResolution none pidOpt true rr).resolution = some rr.resolution := by
  by_cases h : pid = rr.id <;>
    simp [chooseResolution, h]

/-- C3 counterexample: at the concrete input with no registry option the
claimed biconditional fails — the claim predicts credentials are
attached (its second disjunct holds) but `download` sends none, because
credentials are only ever looked up from the registry option. -/
theorem downloadAuth_no_registry_counterexample :
    ¬ authClaimAt (fun _ => ⟨true⟩) none "https://tarballs.example.org/foo.tgz" := by
  intro h
  have hat := h.mpr (Or.inr (Or.inl rfl))
  simp [downloadAuth] at hat

/-- C3 amended: credentials are attached to the outgoing tarball request
iff a registry option is provided and either its credentials carry
alwaysAuth or the tarball url host equals the registry host; in every
other case — including when no registry option is provided, since
credentials are resolved from the registry — the request is anonymous. -/
theorem downloadAuth_scoping (getCred : String → Creds) (registry : Option String)
    (url : String) :
    (downloadAuth getCred registry url).isSome = true ↔
      ∃ r, registry = some r ∧
        ((getCred r).alwaysAuth = true ∨ hostOf url = hostOf r) := by
  cases registry with
  | none => simp [downloadAuth]
  | some r =>
      by_cases h1 : (getCred r).alwaysAuth <;>
        by_cases h2 : hostOf url = hostOf r <;>
          simp [downloadAuth, h1, h2]

/-! Case-analysis lemmas about the staged materialization. -/

theorem fetchPath_present (opts : FetchOpts) (env : FetchEnv) (te : Bool) :
    (fetchPath opts env te).entryTreatedPresent = te := by
  simp only [fetchPath]
  repeat' split
  all_goals rfl

theorem doFetchToStore_present (opts : FetchOpts) (env : FetchEnv) :
    (doFetchToStore opts env).entryTreatedPresent =
      (env.indexHasEntry && env.packageJsonExists) := by
  simp only [doFetchToStore]
  repeat' split <;> simp_all [caught, fetchPath_present]

theorem fetchPath_files_settled (opts : FetchOpts) (env : FetchEnv) (te : Bool) :
    (fetchPath opts env te).fetchingFiles ≠ .pending := by
  simp only [fetchPath]
  repeat' split
  all_goals simp [caught, Future.rejectOnce]

theorem doFetchToStore_files_settled (opts : FetchOpts) (env : FetchEnv) :
    (doFetchToStore opts env).fetchingFiles ≠ .pending := by
  simp only [doFetchToStore]
  repeat' split
  all_goals first
    | exact fetchPath_files_settled opts env true
    | exact fetchPath_files_settled opts env false
    | simp [caught, Future.rejectOnce]

theorem fetchPath_pkg_some (opts : FetchOpts) (env : FetchEnv) (te : Bool) (p : Pkg)
    (hp : opts.pkg = some p) :
    (fetchPath opts env te).fetchingPkg = .resolved p := by
  simp only [fetchPath]
  repeat' split
  all_goals (try simp_all [caught, manifestStep, pkgFuture0, Future.rejectOnce])
  all_goals aesop

theorem doFetchToStore_pkg_some (opts : FetchOpts) (env : FetchEnv) (p : Pkg)
    (hp : opts.pkg = some p) :
    (doFetchToStore opts env).fetchingPkg = .resolved p := by
  simp only [doFetchToStore]
  repeat' split
  all_goals (try simp_all [caught, pkgFuture0, Future.rejectOnce])
  all_goals first
    | exact fetchPath_pkg_some opts env true p hp
    | exact fetchPath_pkg_some opts env false p hp

theorem fetchPath_pkgNone_reject (opts : FetchOpts) (env : FetchEnv) (te : Bool) (e : Err)
    (hp : opts.pkg = none)
    (hf : (fetchPath opts env te).fetchingFiles = .rejected e) :
    (fetchPath opts env te).fetchingPkg = .rejected e ∨
      ∃ q, (fetchPath opts env te).fetchingPkg = .resolved q := by
  simp only [fetchPath, manifestStep, integrityBg, pkgFuture0] at hf ⊢
  repeat' split
  all_goals (try simp_all [caught, pkgFuture0, Future.rejectOnce])
  all_goals aesop

theorem doFetchToStore_pkgNone_reject (opts : FetchOpts) (env : FetchEnv) (e : Err)
    (hp : opts.pkg = none)
    (hf : (doFetchToStore opts env).fetchingFiles = .rejected e) :
    (doFetchToStore opts env).fetchingPkg = .rejected e ∨
      ∃ q, (doFetchToStore opts env).fetchingPkg = .resolved q := by
  simp only [doFetchToStore] at hf ⊢
  repeat' split
  all_goals (try simp_all [caught, pkgFuture0, Future.rejectOnce])
  all_goals first
    | exact fetchPath_pkgNone_reject opts env true e hp hf
    | exact fetchPath_pkgNone_reject opts env false e hp hf

theorem fetchPath_success (opts : FetchOpts) (env : FetchEnv) (te : Bool)
    (pi : PkgIndex) (q : Pkg)
    (h1 : env.rimrafStageResult = .ok ())
    (h2 : env.fetchResult = .ok pi)
    (h3 : te = true → env.rimrafModulesResult = .ok ())
    (h4 : opts.pkg = some q ∨ (opts.pkg = none ∧ env.readPkgStageResult = .ok q))
    (h5 : env.mkdirResult = .ok ())
    (h6 : env.renameResult = .ok ())
    (h7 : env.symlinkResult = .ok ()) :
    (fetchPath opts env te).fetchingFiles = .resolved ⟨pi.headers, true⟩ := by
  rcases h4 with h4 | ⟨h4, h4b⟩ <;>
    cases te <;>
      simp_all [fetchPath, caught, manifestStep, pkgFuture0]

theorem fetchPath_bgTrace_shape (opts : FetchOpts) (env : FetchEnv) (te : Bool) :
    (fetchPath opts env te).bgTrace = [] ∨
      ∃ rest, (fetchPath opts env te).bgTrace =
        FsEvent.writeIntegrityStart (opts.target ++ ["integrity.json"]) ::
          FsEvent.settleCalculatingIntegrity :: rest := by
  simp only [fetchPath, integrityBg, manifestStep]
  repeat' split
  all_goals simp [caught]

theorem doFetchToStore_bgTrace_shape (opts : FetchOpts) (env : FetchEnv) :
    (doFetchToStore opts env).bgTrace = [] ∨
      ∃ rest, (doFetchToStore opts env).bgTrace =
        FsEvent.writeIntegrityStart (opts.target ++ ["integrity.json"]) ::
          FsEvent.settleCalculatingIntegrity :: rest := by
  simp only [doFetchToStore]
  repeat' split
  all_goals first
    | exact fetchPath_bgTrace_shape opts env true
    | exact fetchPath_bgTrace_shape opts env false
    | simp [caught]

theorem fetchPath_mainTrace_no_write (opts : FetchOpts) (env : FetchEnv) (te : Bool)
    (p : Path) :
    FsEvent.writeIntegrityStart p ∉ (fetchPath opts env te).mainTrace ∧
    FsEvent.writeIntegrityComplete p ∉ (fetchPath opts env te).mainTrace := by
  simp only [fetchPath, integrityBg, manifestStep]
  repeat' split
  all_goals simp [caught]

theorem doFetchToStore_mainTrace_no_write (opts : FetchOpts) (env : FetchEnv) (p : Path) :
    FsEvent.writeIntegrityStart p ∉ (doFetchToStore opts env).mainTrace ∧
    FsEvent.writeIntegrityComplete p ∉ (doFetchToStore opts env).mainTrace := by
  simp only [doFetchToStore]
  repeat' split
  all_goals first
    | exact fetchPath_mainTrace_no_write opts env true p
    | exact fetchPath_mainTrace_no_write opts env false p
    | simp [caught]

theorem fetchPath_refetch_calc (opts : FetchOpts) (env : FetchEnv) (pi : PkgIndex)
    (h1 : env.rimrafStageResult = .ok ())
    (h2 : env.fetchResult = .ok pi)
    (h3 : env.rimrafModulesResult = .ok ()) :
    (fetchPath opts env true).calculatingIntegrity = .resolved () ∧
    (fetchPath opts env true).bgTrace = [] := by
  simp only [fetchPath, integrityBg, manifestStep]
  repeat' split
  all_goals simp_all [caught]

theorem fetchPath_rimraf_events (opts : FetchOpts) (env : FetchEnv) (te : Bool) (p : Path)
    (hm : FsEvent.rimraf p ∈ (fetchPath opts env te).mainTrace) :
    p = stageOf opts.target ∨ p = opts.target ++ ["node_modules"] := by
  simp only [fetchPath, integrityBg, manifestStep] at hm
  repeat' split at hm
  all_goals simp_all [caught]

theorem fetchPath_rimraf_nm_mem (opts : FetchOpts) (env : FetchEnv)
    (h1 : env.rimrafStageResult = .ok ()) :
    FsEvent.rimraf (opts.target ++ ["node_modules"]) ∈ (fetchPath opts env true).mainTrace := by
  simp only [fetchPath, integrityBg, manifestStep]
  repeat' split
  all_goals simp_all [caught]

/-! Claim theorems about the staged materialization, with concrete
environments for witnesses and counterexamples. -/

/-- C9: an entry is treated as present exactly when the store index
records its relative path and package/package.json exists under the
entry package link; when present and the verifier trusts it, no fetcher
is invoked, fetchingFiles resolves with the trusted integrity and isNew
false, calculatingIntegrity resolves immediately, and when the caller
supplied no pkg the manifest is read from the linked directory and
settles fetchingPkg. -/
theorem storeHit_reuse (opts : FetchOpts) (env : FetchEnv) (integ : String)
    (h1 : env.indexHasEntry = true) (h2 : env.packageJsonExists = true)
    (h3 : verifierResult opts env = .ok (some integ)) :
    (∀ env' : FetchEnv, (doFetchToStore opts env').entryTreatedPresent =
        (env'.indexHasEntry && env'.packageJsonExists)) ∧
    (doFetchToStore opts env).fetcherCalled = false ∧
    (doFetchToStore opts env).tarballCache = none ∧
    (doFetchToStore opts env).fetchingFiles = .resolved ⟨integ, false⟩ ∧
    (doFetchToStore opts env).calculatingIntegrity = .resolved () ∧
    (opts.pkg = none →
      FsEvent.readPkgDir (opts.target ++ ["package"]) ∈ (doFetchToStore opts env).mainTrace ∧
      (doFetchToStore opts env).fetchingPkg =
        (match env.readPkgLinkResult with
          | .ok p => .resolved p
          | .error e => .rejected e)) ∧
    (∀ p, opts.pkg = some p → (doFetchToStore opts env).fetchingPkg = .resolved p) := by
  refine ⟨doFetchToStore_present opts, ?_, ?_, ?_, ?_, ?_, ?_⟩
  · simp [doFetchToStore, h1, h2, h3]
  · simp [doFetchToStore, h1, h2, h3]
  · simp [doFetchToStore, h1, h2, h3]
  · simp [doFetchToStore, h1, h2, h3]
  · intro hp
    simp [doFetchToStore, h1, h2, h3, hp]
  · intro p hp
    simp [doFetchToStore, h1, h2, h3, hp]

def hitOpts : FetchOpts :=
  { pkg := none
    pkgId := "registry.example.org/foo/1.0.0"
    storePath := ["store"]
    target := ["store", "registry.example.org", "foo", "1.0.0"]
    verifyStoreIntegrity := true }

def hitEnv : FetchEnv :=
  { indexHasEntry := true
    packageJsonExists := true
    untouchedResult := .ok (some "trusted-index")
    loadIntegrityResult := .ok none
    readPkgLinkResult := .ok ⟨"foo"⟩
    rimrafStageResult := .ok ()
    fetchResult := .ok ⟨"headers-index", .ok "sri"⟩
    rimrafModulesResult := .ok ()
    writeCompletes := true
    readPkgStageResult := .ok ⟨"foo"⟩
    mkdirResult := .ok ()
    renameResult := .ok ()
    symlinkResult := .ok () }

theorem storeHit_reuse_witness :
    (doFetchToStore hitOpts hitEnv).fetcherCalled = false ∧
    (doFetchToStore hitOpts hitEnv).fetchingFiles = .resolved ⟨"trusted-index", false⟩ :=
  ⟨(storeHit_reuse hitOpts hitEnv "trusted-index" rfl rfl rfl).2.1,
   (storeHit_reuse hitOpts hitEnv "trusted-index" rfl rfl rfl).2.2.2.1⟩

/-- The awaited pre-work of the staged materialization succeeded: the
stage reset, the queued fetch and, on the refetch path, the node_modules
deletion. -/
def preworkOk (env : FetchEnv) (te : Bool) : Prop :=
  env.rimrafStageResult = .ok () ∧ (∃ pi, env.fetchResult = .ok pi) ∧
    (te = true → env.rimrafModulesResult = .ok ())

/-- Step 5 succeeded: the caller supplied pkg, or the manifest was read
from the stage. -/
def manifestOk (opts : FetchOpts) (env : FetchEnv) : Prop :=
  (∃ p, opts.pkg = some p) ∨ (opts.pkg = none ∧ ∃ q, env.readPkgStageResult = .ok q)

/-- An error e is raised at the first failing awaited step of the staged
materialization (steps 2 to 7): each disjunct says every earlier awaited
step succeeded and the named step failed with e — the stage reset, the
queued fetch, the refetch-path node_modules deletion, the manifest read,
the mkdir, the rename, or the symlink. -/
def mainStepError (opts : FetchOpts) (env : FetchEnv) (te : Bool) (e : Err) : Prop :=
  env.rimrafStageResult = .error e
  ∨ (env.rimrafStageResult = .ok () ∧ env.fetchResult = .error e)
  ∨ (env.rimrafStageResult = .ok () ∧ (∃ pi, env.fetchResult = .ok pi) ∧
      te = true ∧ env.rimrafModulesResult = .error e)
  ∨ (preworkOk env te ∧ opts.pkg = none ∧ env.readPkgStageResult = .error e)
  ∨ (preworkOk env te ∧ manifestOk opts env ∧ env.mkdirResult = .error e)
  ∨ (preworkOk env te ∧ manifestOk opts env ∧ env.mkdirResult = .ok () ∧
      env.renameResult = .error e)
  ∨ (preworkOk env te ∧ manifestOk opts env ∧ env.mkdirResult = .ok () ∧
      env.renameResult = .ok () ∧ env.symlinkResult = .error e)

theorem fetchPath_error_rejects (opts : FetchOpts) (env : FetchEnv) (te : Bool) (e : Err)
    (h : mainStepError opts env te e) :
    (fetchPath opts env te).fetchingFiles = .rejected e := by
  simp only [mainStepError, preworkOk, manifestOk] at h
  rcases h with h1 | ⟨h1, h2⟩ | ⟨h1, ⟨pi, h2⟩, h3, h4⟩ | ⟨⟨h1, ⟨pi, h2⟩, h3⟩, h4, h5⟩ |
    ⟨⟨h1, ⟨pi, h2⟩, h3⟩, hm, h5⟩ | ⟨⟨h1, ⟨pi, h2⟩, h3⟩, hm, h5, h6⟩ |
    ⟨⟨h1, ⟨pi, h2⟩, h3⟩, hm, h5, h6, h7⟩
  · cases te <;> simp_all [fetchPath, caught, Future.rejectOnce]
  · cases te <;> simp_all [fetchPath, caught, Future.rejectOnce]
  · subst h3
    simp_all [fetchPath, caught, Future.rejectOnce]
  · cases te <;>
      simp_all [fetchPath, caught, manifestStep, pkgFuture0, integrityBg, Future.rejectOnce]
  · rcases hm with ⟨p, hp⟩ | ⟨hp, q, hq⟩ <;> cases te <;>
      simp_all [fetchPath, caught, manifestStep, pkgFuture0, integrityBg, Future.rejectOnce]
  · rcases hm with ⟨p, hp⟩ | ⟨hp, q, hq⟩ <;> cases te <;>
      simp_all [fetchPath, caught, manifestStep, pkgFuture0, integrityBg, Future.rejectOnce]
  · rcases hm with ⟨p, hp⟩ | ⟨hp, q, hq⟩ <;> cases te <;>
      simp_all [fetchPath, caught, manifestStep, pkgFuture0, integrityBg, Future.rejectOnce]

/-- C7 amended: any error raised on the executed path of the staged
materialization rejects fetchingFiles with that error — the verifier
probe throwing on a present entry, and each of steps 2 to 7 failing
first after the earlier steps succeeded, on the fresh and on the refetch
path (and fetchingFiles never stays pending); a pre-supplied pkg leaves
fetchingPkg resolved with that pkg, never rejected; when no pkg was
supplied an error that rejects fetchingFiles rejects fetchingPkg unless
the manifest had already been read from the stage and resolved it, in
which case the set-once promise stays resolved; and a failure of the
detached integrity recording after successful unpacking never rejects
fetchingFiles: on the fresh path fetchingFiles resolves with the
unpacker headers with no assumption on the integrity promise outcome or
on whether the integrity.json write ever completes. -/
theorem materialization_error_futures (opts : FetchOpts) (env : FetchEnv) :
    (doFetchToStore opts env).fetchingFiles ≠ .pending ∧
    (∀ e, (env.indexHasEntry && env.packageJsonExists) = true →
      verifierResult opts env = .error e →
      (doFetchToStore opts env).fetchingFiles = .rejected e) ∧
    (∀ e, (env.indexHasEntry && env.packageJsonExists) = false →
      mainStepError opts env false e →
      (doFetchToStore opts env).fetchingFiles = .rejected e) ∧
    (∀ e, (env.indexHasEntry && env.packageJsonExists) = true →
      verifierResult opts env = .ok none →
      mainStepError opts env true e →
      (doFetchToStore opts env).fetchingFiles = .rejected e) ∧
    (∀ p, opts.pkg = some p → (doFetchToStore opts env).fetchingPkg = .resolved p) ∧
    (∀ e, opts.pkg = none → (doFetchToStore opts env).fetchingFiles = .rejected e →
      (doFetchToStore opts env).fetchingPkg = .rejected e ∨
        ∃ q, (doFetchToStore opts env).fetchingPkg = .resolved q) ∧
    (∀ pi q, env.indexHasEntry = false →
      env.rimrafStageResult = .ok () →
      env.fetchResult = .ok pi →
      (opts.pkg = some q ∨ (opts.pkg = none ∧ env.readPkgStageResult = .ok q)) →
      env.mkdirResult = .ok () →
      env.renameResult = .ok () →
      env.symlinkResult = .ok () →
      (doFetchToStore opts env).fetchingFiles = .resolved ⟨pi.headers, true⟩) := by
  refine ⟨doFetchToStore_files_settled opts env, ?_, ?_, ?_,
    fun p hp => doFetchToStore_pkg_some opts env p hp,
    fun e hp hf => doFetchToStore_pkgNone_reject opts env e hp hf, ?_⟩
  · intro e hp hv
    simp [doFetchToStore, hp, hv, caught, Future.rejectOnce]
  · intro e hp hm
    have hred : doFetchToStore opts env = fetchPath opts env false := by
      simp [doFetchToStore, hp]
    rw [hred]
    exact fetchPath_error_rejects opts env false e hm
  · intro e hp hv hm
    have hred : doFetchToStore opts env = fetchPath opts env true := by
      simp [doFetchToStore, hp, hv]
    rw [hred]
    exact fetchPath_error_rejects opts env true e hm
  · intro pi q hie hrs hfr hm hmk hrn hsl
    have hred : doFetchToStore opts env = fetchPath opts env false := by
      simp [doFetchToStore, hie]
    rw [hred]
    exact fetchPath_success opts env false pi q hrs hfr (fun h => nomatch h) hm hmk hrn hsl

def c7Opts : FetchOpts :=
  { pkg := none
    pkgId := "registry.example.org/foo/1.0.0"
    storePath := ["store"]
    target := ["store", "registry.example.org", "foo", "1.0.0"]
    verifyStoreIntegrity := false }

def c7Env : FetchEnv :=
  { indexHasEntry := false
    packageJsonExists := false
    untouchedResult := .ok none
    loadIntegrityResult := .ok none
    readPkgLinkResult := .ok ⟨"foo"⟩
    rimrafStageResult := .ok ()
    fetchResult := .ok ⟨"headers-index", .ok "sri"⟩
    rimrafModulesResult := .ok ()
    writeCompletes := true
    readPkgStageResult := .ok ⟨"foo"⟩
    mkdirResult := .ok ()
    renameResult := .error "EACCES rename failed"
    symlinkResult := .ok () }

/-- C7 counterexample: the rename of step 6 fails after the manifest was
already read from the stage in step 5; fetchingFiles is rejected and the
caller supplied no pkg, yet fetchingPkg is not rejected — it had already
resolved, and the set-once promise ignores the later reject call. -/
theorem materialization_error_counterexample :
    c7Opts.pkg = none ∧
    (doFetchToStore c7Opts c7Env).fetchingFiles = .rejected "EACCES rename failed" ∧
    (doFetchToStore c7Opts c7Env).fetchingPkg = .resolved ⟨"foo"⟩ := by
  decide

def c7BgFailEnv : FetchEnv :=
  { c7Env with
      fetchResult := .ok ⟨"headers-index", .error "integrity stream failed"⟩
      writeCompletes := false
      renameResult := .ok () }

theorem materialization_error_futures_witness :
    (doFetchToStore c7Opts c7Env).fetchingFiles = .rejected "EACCES rename failed" ∧
    (doFetchToStore c7Opts c7BgFailEnv).fetchingFiles =
      .resolved ⟨"headers-index", true⟩ :=
  ⟨(materialization_error_futures c7Opts c7Env).2.2.1 "EACCES rename failed" rfl
      (Or.inr (Or.inr (Or.inr (Or.inr (Or.inr (Or.inl
        ⟨⟨rfl, ⟨⟨"headers-index", .ok "sri"⟩, rfl⟩, fun h => nomatch h⟩,
          Or.inr ⟨rfl, ⟨⟨"foo"⟩, rfl⟩⟩, rfl, rfl⟩)))))),
    (materialization_error_futures c7Opts c7BgFailEnv).2.2.2.2.2.2
      ⟨"headers-index", .error "integrity stream failed"⟩ ⟨"foo"⟩
      rfl rfl rfl (Or.inr ⟨rfl, rfl⟩) rfl rfl rfl⟩

def c2Opts : FetchOpts :=
  { pkg := some ⟨"foo"⟩
    pkgId := "registry.example.org/foo/1.0.0"
    storePath := ["store"]
    target := ["store", "registry.example.org", "foo", "1.0.0"]
    verifyStoreIntegrity := true }

def c2Env : FetchEnv :=
  { indexHasEntry := false
    packageJsonExists := false
    untouchedResult := .ok none
    loadIntegrityResult := .ok none
    readPkgLinkResult := .ok ⟨"foo"⟩
    rimrafStageResult := .ok ()
    fetchResult := .ok ⟨"headers-index", .ok "sri"⟩
    rimrafModulesResult := .ok ()
    writeCompletes := true
    readPkgStageResult := .ok ⟨"foo"⟩
    mkdirResult := .ok ()
    renameResult := .ok ()
    symlinkResult := .ok () }

/-- C2 counterexample: on a fresh fetch the background task initiates
the integrity.json write and then resolves calculatingIntegrity
synchronously without awaiting the write; in the background trace the
settle event precedes the write-completion event — nothing completed
before settling — so calculatingIntegrity does not settle only after the
write of target/integrity.json has completed. -/
theorem calculatingIntegrity_before_write_counterexample :
    (doFetchToStore c2Opts c2Env).bgTrace =
      [FsEvent.writeIntegrityStart (c2Opts.target ++ ["integrity.json"]),
        FsEvent.settleCalculatingIntegrity,
        FsEvent.writeIntegrityComplete (c2Opts.target ++ ["integrity.json"])] ∧
    ((doFetchToStore c2Opts c2Env).bgTrace.takeWhile
        (fun ev => ev ≠ FsEvent.settleCalculatingIntegrity)).contains
      (FsEvent.writeIntegrityComplete (c2Opts.target ++ ["integrity.json"])) = false ∧
    (doFetchToStore c2Opts c2Env).calculatingIntegrity = .resolved () := by
  decide

/-- C2 amended: whenever the background task records integrity (fresh
path), calculatingIntegrity settles immediately after the integrity.json
write has been initiated — the write is not awaited and completes, if
ever, only later; no integrity.json write happens in the main flow; and
on the reuse and refetch paths calculatingIntegrity settles immediately
with no write at all. -/
theorem calculatingIntegrity_after_write_start (opts : FetchOpts) (env : FetchEnv)
    (integ : String) (pi : PkgIndex) :
    ((doFetchToStore opts env).bgTrace = [] ∨
      ∃ rest, (doFetchToStore opts env).bgTrace =
        FsEvent.writeIntegrityStart (opts.target ++ ["integrity.json"]) ::
          FsEvent.settleCalculatingIntegrity :: rest) ∧
    (∀ p, FsEvent.writeIntegrityStart p ∉ (doFetchToStore opts env).mainTrace) ∧
    (∀ p, FsEvent.writeIntegrityComplete p ∉ (doFetchToStore opts env).mainTrace) ∧
    (env.indexHasEntry = true → env.packageJsonExists = true →
      verifierResult opts env = .ok (some integ) →
      (doFetchToStore opts env).calculatingIntegrity = .resolved () ∧
      (doFetchToStore opts env).bgTrace = []) ∧
    (env.indexHasEntry = true → env.packageJsonExists = true →
      verifierResult opts env = .ok none →
      env.rimrafStageResult = .ok () → env.fetchResult = .ok pi →
      env.rimrafModulesResult = .ok () →
      (doFetchToStore opts env).calculatingIntegrity = .resolved () ∧
      (doFetchToStore opts env).bgTrace = []) := by
  refine ⟨doFetchToStore_bgTrace_shape opts env,
    fun p => (doFetchToStore_mainTrace_no_write opts env p).1,
    fun p => (doFetchToStore_mainTrace_no_write opts env p).2, ?_, ?_⟩
  · intro h1 h2 h3
    constructor <;> simp [doFetchToStore, h1, h2, h3]
  · intro h1 h2 h3 hrs hfr hrm
    have hred : doFetchToStore opts env = fetchPath opts env true := by
      simp [doFetchToStore, h1, h2, h3]
    rw [hred]
    exact fetchPath_refetch_calc opts env pi hrs hfr hrm

def c2RefetchEnv : FetchEnv :=
  { c2Env with
      indexHasEntry := true
      packageJsonExists := true
      untouchedResult := .ok none }

theorem calculatingIntegrity_after_write_start_witness :
    (doFetchToStore c2Opts c2RefetchEnv).calculatingIntegrity = .resolved () ∧
    (doFetchToStore c2Opts c2RefetchEnv).bgTrace = [] :=
  (calculatingIntegrity_after_write_start c2Opts c2RefetchEnv "unused"
    ⟨"headers-index", .ok "sri"⟩).2.2.2.2 rfl rfl rfl rfl rfl rfl

/-- C8: on the refetch path (entry present but failed verification) the
only recursive deletions are the staging directory and
target/node_modules; neither deletion covers target/packed.tgz or
target/integrity.json — the stage is a sibling, not an ancestor — so the
deletion step leaves both files unchanged; and once the stage reset
succeeded the node_modules deletion is indeed issued. -/
theorem refetch_deletes_only_node_modules (opts : FetchOpts) (env : FetchEnv)
    (h1 : env.indexHasEntry = true) (h2 : env.packageJsonExists = true)
    (h3 : verifierResult opts env = .ok none) :
    (∀ p, FsEvent.rimraf p ∈ (doFetchToStore opts env).mainTrace →
      (p = stageOf opts.target ∨ p = opts.target ++ ["node_modules"]) ∧
      covers p (opts.target ++ ["packed.tgz"]) = false ∧
      covers p (opts.target ++ ["integrity.json"]) = false) ∧
    (env.rimrafStageResult = .ok () →
      FsEvent.rimraf (opts.target ++ ["node_modules"]) ∈
        (doFetchToStore opts env).mainTrace) := by
  have hred : doFetchToStore opts env = fetchPath opts env true := by
    simp [doFetchToStore, h1, h2, h3]
  rw [hred]
  constructor
  · intro p hp
    have hcases := fetchPath_rimraf_events opts env true p hp
    refine ⟨hcases, ?_, ?_⟩
    · rcases hcases with hc | hc
      · subst hc
        exact covers_stage_append opts.target "packed.tgz" (by decide)
      · subst hc
        rw [covers_append_last]
        rfl
    · rcases hcases with hc | hc
      · subst hc
        exact covers_stage_append opts.target "integrity.json" (by decide)
      · subst hc
        rw [covers_append_last]
        rfl
  · intro hrs
    exact fetchPath_rimraf_nm_mem opts env hrs

def c8Opts : FetchOpts :=
  { pkg := some ⟨"foo"⟩
    pkgId := "registry.example.org/foo/1.0.0"
    storePath := ["store"]
    target := ["store", "registry.example.org", "foo", "1.0.0"]
    verifyStoreIntegrity := true }

def c8Env : FetchEnv :=
  { indexHasEntry := true
    packageJsonExists := true
    untouchedResult := .ok none
    loadIntegrityResult := .ok none
    readPkgLinkResult := .ok ⟨"foo"⟩
    rimrafStageResult := .ok ()
    fetchResult := .ok ⟨"headers-index", .ok "sri"⟩
    rimrafModulesResult := .ok ()
    writeCompletes := true
    readPkgStageResult := .ok ⟨"foo"⟩
    mkdirResult := .ok ()
    renameResult := .ok ()
    symlinkResult := .ok () }

theorem refetch_deletes_only_node_modules_witness :
    FsEvent.rimraf (c8Opts.target ++ ["node_modules"]) ∈
      (doFetchToStore c8Opts c8Env).mainTrace :=
  (refetch_deletes_only_node_modules c8Opts c8Env rfl rfl rfl).2 rfl

def c4Opts : FetchOpts :=
  { pkg := some ⟨"foo"⟩
    pkgId := "example.com:8080/foo/1.0.0"
    storePath := ["store"]
    target := storeTarget ["store"] "example.com:8080/foo/1.0.0"
    verifyStoreIntegrity := false }

def c4Env : FetchEnv :=
  { indexHasEntry := false
    packageJsonExists := false
    untouchedResult := .ok none
    loadIntegrityResult := .ok none
    readPkgLinkResult := .ok ⟨"foo"⟩
    rimrafStageResult := .ok ()
    fetchResult := .ok ⟨"headers-index", .ok "sri"⟩
    rimrafModulesResult := .ok ()
    writeCompletes := true
    readPkgStageResult := .ok ⟨"foo"⟩
    mkdirResult := .ok ()
    renameResult := .ok ()
    symlinkResult := .ok () }

/-- C4 (code bug, evaluated at the failing input): for an identity
containing a filesystem-unsafe character, the fetcher is pointed at
storePath joined with the raw pkgId for packed.tgz, while the store
entry directory — the one holding integrity.json and
node_modules/<pkgName> — is storePath joined with pkgIdToFilename of the
id; the cached tarball therefore lands outside the store entry. -/
theorem cachedTarball_location_bug :
    storeTarget ["store"] "example.com:8080/foo/1.0.0" =
      ["store", "example.com+8080", "foo", "1.0.0"] ∧
    (doFetchToStore c4Opts c4Env).tarballCache =
      some ["store", "example.com:8080", "foo", "1.0.0", "packed.tgz"] ∧
    (doFetchToStore c4Opts c4Env).tarballCache ≠
      some (c4Opts.target ++ ["packed.tgz"]) := by
  decide

end PackageStore
